import Mathlib

/-!
Shallow embedding of scripts/label-checker.py.

The script reads environment inputs (branch name, PR title), asks git for a
name-status diff and for commit subjects, derives an expected label set,
reconciles it against the PR's current labels, and resolves a milestone from
the PR's base branch. Strings are modelled as Lean String (lists of Chars);
the two regexes of the script are modelled character by character; the
git/GitHub collaborators are modelled as explicit inputs.
-/

/-- Python str.lower for the ASCII range (the script only compares against
ASCII literals). -/
def lowerChar (c : Char) : Char :=
  if 65 ≤ c.toNat ∧ c.toNat ≤ 90 then Char.ofNat (c.toNat + 32) else c

/-- Python str.lower applied to a whole string. -/
def lowerStr (s : String) : String :=
  String.mk (s.data.map lowerChar)

/-- pat is a prefix of l (pattern argument first). Models Python
str.startswith at the character-list level. -/
def listStarts : List Char → List Char → Bool
  | [], _ => true
  | _ :: _, [] => false
  | a :: as, b :: bs => a == b && listStarts as bs

/-- Python s.startswith(pre). -/
def strStartsWith (s pre : String) : Bool :=
  listStarts pre.data s.data

/-- Python s.endswith(suf). -/
def strEndsWith (s suf : String) : Bool :=
  listStarts suf.data.reverse s.data.reverse

/-- pat occurs as a contiguous substring of the second list. -/
def listContainsSub (pat : List Char) : List Char → Bool
  | [] => pat.isEmpty
  | c :: cs => listStarts pat (c :: cs) || listContainsSub pat cs

/-- Python (pat in s) substring test. -/
def strContains (s pat : String) : Bool :=
  listContainsSub pat.data s.data

/-- re.search with IGNORECASE for the literal alternation
@cacheable|@cacheble used by the script (line 46): case-insensitive
substring containment of either spelling. -/
def cacheMarker (content : String) : Bool :=
  strContains (lowerStr content) "@cacheable" || strContains (lowerStr content) "@cacheble"

/-- The character class A-Z of the ticket-key regex. -/
def isUpperAZ (c : Char) : Bool :=
  65 ≤ c.toNat && c.toNat ≤ 90

/-- The character class 0-9 of the ticket-key regex. -/
def isDigit09 (c : Char) : Bool :=
  48 ≤ c.toNat && c.toNat ≤ 57

/-- Matching the anchored regex [A-Z]{2,4}-[0-9]+ at the head of a character
list, with Python's greedy-with-backtracking semantics: the run of leading
uppercase letters must have length 2..4 (a longer run leaves an uppercase
letter, not a hyphen, at every backtrack position, so the match fails), then
a hyphen, then a maximal nonempty run of digits. Returns the matched
characters and the remainder after the match. -/
def ticketMatchAt (cs : List Char) : Option (List Char × List Char) :=
  let uppers := cs.takeWhile isUpperAZ
  let k := uppers.length
  if 2 ≤ k ∧ k ≤ 4 then
    match cs.drop k with
    | '-' :: rest =>
      let digits := rest.takeWhile isDigit09
      if digits.isEmpty then none
      else some (uppers ++ '-' :: digits, rest.drop digits.length)
    | _ => none
  else none

/-- re.findall worker: scan left to right, emitting non-overlapping matches,
advancing one character when no match starts here. Fuel bounds the recursion;
each step consumes at least one character, so fuel = length suffices. -/
def findallTicketAux : Nat → List Char → List String
  | 0, _ => []
  | _ + 1, [] => []
  | fuel + 1, c :: cs =>
    match ticketMatchAt (c :: cs) with
    | some (m, rest) => String.mk m :: findallTicketAux fuel rest
    | none => findallTicketAux fuel cs

/-- re.findall of the ticket-key pattern [A-Z]{2,4}-\d+ over a string
(script lines 60-68). -/
def ticketFindall (s : String) : List String :=
  findallTicketAux s.data.length s.data

/-- re.match of the ticket-key pattern against the start of a label
(script line 177). -/
def isTicketLabel (l : String) : Bool :=
  (ticketMatchAt l.data).isSome

/-- Outcome of a subprocess.run call: the spawn itself can raise (executable
not found), or the command completes (with any exit code) and its captured
stdout is available; a failing git command writes to stderr and leaves stdout
empty. -/
inductive RunOutcome where
  | raised (msg : String)
  | completed (stdout : String)
deriving DecidableEq

/-- Python str.strip default whitespace (ASCII fragment). -/
def isPyWhitespace (c : Char) : Bool :=
  c == ' ' || c == '\t' || c == '\n' || c == '\r' || c.toNat == 11 || c.toNat == 12

/-- Python str.strip. -/
def stripChars (l : List Char) : List Char :=
  ((l.dropWhile isPyWhitespace).reverse.dropWhile isPyWhitespace).reverse

/-- splitlines worker: accumulate the current line, cut at newlines. -/
def splitLinesAux : List Char → List Char → List (List Char)
  | [], acc => [acc.reverse]
  | '\n' :: cs, acc => acc.reverse :: splitLinesAux cs []
  | c :: cs, acc => splitLinesAux cs (c :: acc)

/-- Python str.splitlines for newline-separated git output; the empty string
yields no lines. -/
def splitlines (l : List Char) : List (List Char) :=
  if l.isEmpty then [] else splitLinesAux l []

/-- Python line.split(tab, 1): cut at the first tab, when there is one. -/
def splitTab1 (l : List Char) : Option (List Char × List Char) :=
  match l.span (fun c => c != '\t') with
  | (before, '\t' :: after) => some (before, after)
  | _ => none

/-- Parsing of git diff --name-status stdout (script lines 19-24): strip,
split into lines, and keep (status, path) for every line containing a tab. -/
def parseNameStatus (stdout : String) : List (String × String) :=
  (splitlines (stripChars stdout.data)).filterMap fun line =>
    (splitTab1 line).map fun p => (String.mk p.1, String.mk p.2)

/-- get_changed_files (script lines 14-24). The subprocess.run call is not
wrapped in try/except, so a raised spawn error (git executable unavailable)
propagates to the caller; a completed command has its stdout parsed. -/
def get_changed_files (r : RunOutcome) : Except String (List (String × String)) :=
  match r with
  | .raised msg => .error msg
  | .completed out => .ok (parseNameStatus out)

/-- Rule 2 test for one changed file: status not D and path ends in .impex
(script lines 34-38). -/
def impexHit (sf : String × String) : Bool :=
  sf.1 != "D" && strEndsWith sf.2 ".impex"

/-- Rule 3 test for one changed file: status not D and path ends in
-items.xml (script lines 34-40). -/
def itemsHit (sf : String × String) : Bool :=
  sf.1 != "D" && strEndsWith sf.2 "-items.xml"

/-- Rule 4 test for one changed file: status not D, path ends in .java, and
the file's content (none models an unreadable file, which the except/continue
of lines 47-48 skips) matches the cacheable marker. -/
def cacheHit (readFile : String → Option String) (sf : String × String) : Bool :=
  sf.1 != "D" && strEndsWith sf.2 ".java" && ((readFile sf.2).map cacheMarker).getD false

/-- check_label_conditions (script lines 26-56): the set of labels the rule
loop adds to EXPECTED_LABELS, as a function of the BRANCH_NAME input, a
content oracle for the working tree, and the changed-file list. -/
def check_label_conditions (branch : String) (readFile : String → Option String)
    (files : List (String × String)) : Finset String :=
  (if strStartsWith (lowerStr branch) "conflict" then ({"conflict"} : Finset String) else ∅)
    ∪ (if files.any impexHit then ({"IMPEX"} : Finset String) else ∅)
    ∪ (if files.any itemsHit then ({"ITEMS"} : Finset String) else ∅)
    ∪ (if files.any (cacheHit readFile) then ({"CACHE"} : Finset String) else ∅)

/-- extract_issue_keys (script lines 58-70): every ticket-key match found in
the branch name, the PR title, or any commit subject between base and head. -/
def extract_issue_keys (branch pr_title : String) (commitSubjects : List String) :
    Finset String :=
  (ticketFindall branch).toFinset ∪ (ticketFindall pr_title).toFinset
    ∪ commitSubjects.foldr (fun msg acc => (ticketFindall msg).toFinset ∪ acc) ∅

/-- The full expected label set computed by main (script lines 199-207):
rule-engine labels united with extracted issue keys. -/
def expectedLabels (branch pr_title : String) (readFile : String → Option String)
    (files : List (String × String)) (commitSubjects : List String) : Finset String :=
  check_label_conditions branch readFile files
    ∪ extract_issue_keys branch pr_title commitSubjects

/-- The reserved system labels of sync_labels (script line 189). -/
def systemLabels : Finset String :=
  {"IMPEX", "CACHE", "ITEMS", "conflict"}

/-- The ticket labels whose creation sync_labels attempts before refreshing
the catalog (script lines 176-184): expected labels matching the ticket-key
pattern and absent from the pre-refresh catalog. -/
def ticket_create_attempts (expected repo : Finset String) : Finset String :=
  expected.filter (fun l => isTicketLabel l = true ∧ l ∉ repo)

/-- The labels sync_labels attempts to add (script lines 176-181 of the add
phase): expected minus current, filtered to the catalog as refreshed after
ticket-label creation. -/
def sync_to_add (expected current repoRefreshed : Finset String) : Finset String :=
  (expected \ current).filter (fun l => l ∈ repoRefreshed)

/-- The labels sync_labels attempts to remove (script lines 189-190):
current labels that are system labels and no longer expected. -/
def sync_to_remove (expected current : Finset String) : Finset String :=
  (current ∩ systemLabels) \ expected

/-- The milestone name chosen by set_milestone from the PR's base branch
(script lines 72-87); none models the early return with no milestone
action. -/
def set_milestone_choice (base_branch : String) : Option String :=
  if strStartsWith base_branch "development" then some "sprint-dev"
  else if strStartsWith base_branch "feature/marketplace" then some "marketplace"
  else if strStartsWith base_branch "release/upgrade" then some "cloud"
  else if strStartsWith base_branch "offline_kasa" then some "offline-kasa"
  else none

/-- One run's inputs: the four environment values the script reads, the PR's
base branch from the API, and the collaborator oracles (git outputs, file
contents, PR labels, repository catalog). -/
structure RunInputs where
  branch_name : String
  pr_title : String
  base_ref : String
  diffOutcome : RunOutcome
  commitSubjects : List String
  readFile : String → Option String
  current_labels : Finset String
  repo_labels : Finset String

/-- The milestone decision of a run: set_milestone reads pr.base.ref only
(script line 73). -/
def run_milestone_choice (i : RunInputs) : Option String :=
  set_milestone_choice i.base_ref

/-- The changed-file list of the C5 end-to-end scenario. -/
def c5Files : List (String × String) :=
  [("M", "module/x.impex"), ("D", "old-items.xml"), ("M", "Service.java")]

/-- The content oracle of the C5 scenario: Service.java contains @Cacheable,
nothing else is readable. -/
def c5ReadFile : String → Option String := fun p =>
  if p = "Service.java" then some "public class Service with @Cacheable on get" else none

/-- Membership in an if-guarded singleton contribution of the rule engine. -/
theorem mem_iteSingleton (c : Prop) [Decidable c] (x l : String) :
    (l ∈ if c then ({x} : Finset String) else (∅ : Finset String)) ↔ c ∧ l = x := by
  by_cases h : c <;> simp [h]

/-- Every successful anchored ticket-key match contains a hyphen. -/
theorem ticketMatchAt_dash (cs m rest : List Char)
    (h : ticketMatchAt cs = some (m, rest)) : '-' ∈ m := by
  simp only [ticketMatchAt] at h
  split at h
  · split at h
    · split at h
      · exact absurd h (by simp)
      · rw [Option.some_inj, Prod.mk.injEq] at h
        rw [← h.1]
        simp
    · exact absurd h (by simp)
  · exact absurd h (by simp)

/-- Every string emitted by the findall worker contains a hyphen. -/
theorem findallTicketAux_dash :
    ∀ (fuel : Nat) (cs : List Char) (m : String),
      m ∈ findallTicketAux fuel cs → '-' ∈ m.data := by
  intro fuel
  induction fuel with
  | zero => intro cs m h; simp [findallTicketAux] at h
  | succ n ih =>
    intro cs m h
    cases cs with
    | nil => simp [findallTicketAux] at h
    | cons c cs =>
      rw [findallTicketAux] at h
      cases hm : ticketMatchAt (c :: cs) with
      | none => rw [hm] at h; exact ih cs m h
      | some pr =>
        rw [hm] at h
        rcases List.mem_cons.mp h with h1 | h2
        · rw [h1]
          exact ticketMatchAt_dash _ _ _ hm
        · exact ih pr.2 m h2

/-- Every ticket-key label extracted by the findall model contains a
hyphen. -/
theorem ticketFindall_dash (s : String) (m : String)
    (h : m ∈ ticketFindall s) : '-' ∈ m.data :=
  findallTicketAux_dash _ _ _ h

/-- Membership in the fold over commit subjects of extract_issue_keys. -/
theorem mem_foldr_ticket (subs : List String) (l : String) :
    (l ∈ subs.foldr (fun msg acc => (ticketFindall msg).toFinset ∪ acc) ∅) ↔
      ∃ m ∈ subs, l ∈ ticketFindall m := by
  induction subs with
  | nil => simp
  | cons a t ih => simp [ih]

/-- Membership characterisation of extract_issue_keys. -/
theorem mem_extract_iff (b t : String) (subs : List String) (l : String) :
    l ∈ extract_issue_keys b t subs ↔
      l ∈ ticketFindall b ∨ l ∈ ticketFindall t ∨ ∃ m ∈ subs, l ∈ ticketFindall m := by
  simp [extract_issue_keys, mem_foldr_ticket, or_assoc]

/-- Every label produced by extract_issue_keys contains a hyphen. -/
theorem extract_dash (b t : String) (subs : List String) (l : String)
    (h : l ∈ extract_issue_keys b t subs) : '-' ∈ l.data := by
  rcases (mem_extract_iff b t subs l).mp h with h1 | h1 | ⟨m, _, h1⟩ <;>
    exact ticketFindall_dash _ _ h1

/-- Membership characterisation of check_label_conditions. -/
theorem mem_check_iff (branch : String) (readFile : String → Option String)
    (files : List (String × String)) (l : String) :
    l ∈ check_label_conditions branch readFile files ↔
      (strStartsWith (lowerStr branch) "conflict" = true ∧ l = "conflict")
      ∨ (files.any impexHit = true ∧ l = "IMPEX")
      ∨ (files.any itemsHit = true ∧ l = "ITEMS")
      ∨ (files.any (cacheHit readFile) = true ∧ l = "CACHE") := by
  simp [check_label_conditions, Finset.mem_union, mem_iteSingleton, or_assoc]

/-- The per-file IMPEX test, unfolded. -/
theorem impexHit_iff (sf : String × String) :
    impexHit sf = true ↔ sf.1 ≠ "D" ∧ strEndsWith sf.2 ".impex" = true := by
  simp [impexHit, bne_iff_ne]

/-- The per-file CACHE test, unfolded: a readable java file whose content
matches the marker. -/
theorem cacheHit_iff (readFile : String → Option String) (sf : String × String) :
    cacheHit readFile sf = true ↔
      sf.1 ≠ "D" ∧ strEndsWith sf.2 ".java" = true ∧
        ∃ c, readFile sf.2 = some c ∧ cacheMarker c = true := by
  rw [cacheHit]
  cases h : readFile sf.2 <;> simp [h, bne_iff_ne, and_assoc]

/-- C6: for every changed-file list (and any branch, title, contents and
commit subjects), the expected label set contains IMPEX if and only if the
list has a path ending in .impex whose status is not D; if every .impex path
is deleted, or there is none, IMPEX is absent. -/
theorem impex_in_expected_iff (branch pr_title : String)
    (readFile : String → Option String) (files : List (String × String))
    (subs : List String) :
    "IMPEX" ∈ expectedLabels branch pr_title readFile files subs ↔
      ∃ sf ∈ files, sf.1 ≠ "D" ∧ strEndsWith sf.2 ".impex" = true := by
  have h1 : "IMPEX" ∈ expectedLabels branch pr_title readFile files subs ↔
      files.any impexHit = true := by
    rw [expectedLabels, Finset.mem_union, mem_check_iff]
    constructor
    · rintro ((⟨_, h⟩ | ⟨h, _⟩ | ⟨_, h⟩ | ⟨_, h⟩) | he)
      · exact absurd h (by decide)
      · exact h
      · exact absurd h (by decide)
      · exact absurd h (by decide)
      · exact absurd (extract_dash _ _ _ _ he) (by decide)
    · intro h
      exact Or.inl (Or.inr (Or.inl ⟨h, rfl⟩))
  rw [h1, List.any_eq_true]
  simp only [impexHit_iff]

/-- C6 witness: one modified .impex file makes IMPEX expected. -/
theorem impex_in_expected_iff_witness :
    "IMPEX" ∈ expectedLabels "b" "t" (fun _ => none) [("M", "a.impex")] [] ↔
      ∃ sf ∈ [(("M" : String), ("a.impex" : String))],
        sf.1 ≠ "D" ∧ strEndsWith sf.2 ".impex" = true :=
  impex_in_expected_iff "b" "t" (fun _ => none) [("M", "a.impex")] []

/-- C7: for every branch name (and any other inputs), the expected label set
contains conflict if and only if the lowercased branch name starts with
conflict; no other rule ever contributes the conflict label. -/
theorem conflict_in_expected_iff (branch pr_title : String)
    (readFile : String → Option String) (files : List (String × String))
    (subs : List String) :
    "conflict" ∈ expectedLabels branch pr_title readFile files subs ↔
      strStartsWith (lowerStr branch) "conflict" = true := by
  rw [expectedLabels, Finset.mem_union, mem_check_iff]
  constructor
  · rintro ((⟨h, _⟩ | ⟨_, h⟩ | ⟨_, h⟩ | ⟨_, h⟩) | he)
    · exact h
    · exact absurd h (by decide)
    · exact absurd h (by decide)
    · exact absurd h (by decide)
    · exact absurd (extract_dash _ _ _ _ he) (by decide)
  · intro h
    exact Or.inl (Or.inl ⟨h, rfl⟩)

/-- C7 witness: a branch named Conflict-rebase gets the conflict label. -/
theorem conflict_in_expected_iff_witness :
    "conflict" ∈ expectedLabels "Conflict-rebase" "t" (fun _ => none) [] [] ↔
      strStartsWith (lowerStr "Conflict-rebase") "conflict" = true :=
  conflict_in_expected_iff "Conflict-rebase" "t" (fun _ => none) [] []

/-- C8: the expected label set contains CACHE if and only if some changed
file with status not D and a .java suffix has readable content matching the
case-insensitive cacheable marker (either spelling); unreadable files (none
from the content oracle) contribute nothing and do not stop the scan of the
other files. -/
theorem cache_in_expected_iff (branch pr_title : String)
    (readFile : String → Option String) (files : List (String × String))
    (subs : List String) :
    "CACHE" ∈ expectedLabels branch pr_title readFile files subs ↔
      ∃ sf ∈ files, sf.1 ≠ "D" ∧ strEndsWith sf.2 ".java" = true ∧
        ∃ c, readFile sf.2 = some c ∧ cacheMarker c = true := by
  have h1 : "CACHE" ∈ expectedLabels branch pr_title readFile files subs ↔
      files.any (cacheHit readFile) = true := by
    rw [expectedLabels, Finset.mem_union, mem_check_iff]
    constructor
    · rintro ((⟨_, h⟩ | ⟨_, h⟩ | ⟨_, h⟩ | ⟨h, _⟩) | he)
      · exact absurd h (by decide)
      · exact absurd h (by decide)
      · exact absurd h (by decide)
      · exact h
      · exact absurd (extract_dash _ _ _ _ he) (by decide)
    · intro h
      exact Or.inl (Or.inr (Or.inr (Or.inr ⟨h, rfl⟩)))
  rw [h1, List.any_eq_true]
  simp only [cacheHit_iff]

/-- C8 witness: an unreadable java file is skipped while a readable one with
the misspelled marker still yields CACHE. -/
theorem cache_in_expected_iff_witness :
    "CACHE" ∈ expectedLabels "b" "t"
        (fun p => if p = "B.java" then some "uses @CacheBle here" else none)
        [("M", "A.java"), ("M", "B.java")] [] ↔
      ∃ sf ∈ [(("M" : String), ("A.java" : String)), (("M" : String), ("B.java" : String))],
        sf.1 ≠ "D" ∧ strEndsWith sf.2 ".java" = true ∧
          ∃ c, (fun p => if p = "B.java" then some "uses @CacheBle here" else none) sf.2
            = some c ∧ cacheMarker c = true :=
  cache_in_expected_iff "b" "t"
    (fun p => if p = "B.java" then some "uses @CacheBle here" else none)
    [("M", "A.java"), ("M", "B.java")] []

/-- C5: end-to-end rule-engine scenario. With changed files
(M, module/x.impex), (D, old-items.xml), (M, Service.java) where
Service.java contains @Cacheable, branch PROJ-42-fix, title
PROJ-42: fix bug, and commit subjects contributing no ticket key other than
PROJ-42, the expected label set is exactly IMPEX, CACHE, PROJ-42; ITEMS is
absent because the only -items.xml file is deleted. -/
theorem c5_end_to_end (subs : List String)
    (h : ∀ m ∈ subs, ∀ k ∈ ticketFindall m, k = "PROJ-42") :
    expectedLabels "PROJ-42-fix" "PROJ-42: fix bug" c5ReadFile c5Files subs
      = {"IMPEX", "CACHE", "PROJ-42"} := by
  have hcheck : check_label_conditions "PROJ-42-fix" c5ReadFile c5Files
      = {"IMPEX", "CACHE"} := by decide
  have hb : ticketFindall "PROJ-42-fix" = ["PROJ-42"] := by decide
  have ht : ticketFindall "PROJ-42: fix bug" = ["PROJ-42"] := by decide
  have hfold : subs.foldr (fun msg acc => (ticketFindall msg).toFinset ∪ acc) ∅
      ⊆ ({"PROJ-42"} : Finset String) := by
    intro l hl
    rcases (mem_foldr_ticket subs l).mp hl with ⟨m, hm, hk⟩
    simp [h m hm l hk]
  rw [expectedLabels, extract_issue_keys, hcheck, hb, ht]
  have hsingle : (["PROJ-42"] : List String).toFinset = {"PROJ-42"} := by decide
  rw [hsingle, Finset.union_self, Finset.union_eq_left.mpr hfold]
  decide

/-- C5 witness: the scenario with an empty commit-subject list. -/
theorem c5_end_to_end_witness :
    expectedLabels "PROJ-42-fix" "PROJ-42: fix bug" c5ReadFile c5Files []
      = {"IMPEX", "CACHE", "PROJ-42"} :=
  c5_end_to_end [] (by simp)

/-- C1: every label sync_labels proposes for removal is one of the four
system labels, is currently on the PR, is not expected, and does not match
the ticket-key pattern; so no ticket-key label and no other user-applied
label is ever removed. -/
theorem sync_remove_only_system (expected current : Finset String) (l : String)
    (h : l ∈ sync_to_remove expected current) :
    l ∈ systemLabels ∧ l ∈ current ∧ l ∉ expected ∧ isTicketLabel l = false := by
  rw [sync_to_remove, Finset.mem_sdiff, Finset.mem_inter] at h
  refine ⟨h.1.2, h.1.1, h.2, ?_⟩
  have hs := h.1.2
  rw [systemLabels] at hs
  simp only [Finset.mem_insert, Finset.mem_singleton] at hs
  rcases hs with rfl | rfl | rfl | rfl <;> decide

/-- C1 witness: a stale IMPEX label is removed and is not a ticket key. -/
theorem sync_remove_only_system_witness :
    ("IMPEX" : String) ∈ systemLabels ∧
      "IMPEX" ∈ ({"IMPEX", "PROJ-7"} : Finset String) ∧
      "IMPEX" ∉ (∅ : Finset String) ∧ isTicketLabel "IMPEX" = false :=
  sync_remove_only_system ∅ {"IMPEX", "PROJ-7"} "IMPEX" (by decide)

/-- C2: reconciliation is idempotent. If the first run's additions and
removals are all applied and nothing else changes (same expected set, same
refreshed catalog), the second run computes an empty add set and an empty
remove set. -/
theorem sync_idempotent (expected current repoR : Finset String) :
    sync_to_add expected
        ((current ∪ sync_to_add expected current repoR) \ sync_to_remove expected current)
        repoR = ∅
    ∧ sync_to_remove expected
        ((current ∪ sync_to_add expected current repoR) \ sync_to_remove expected current)
        = ∅ := by
  constructor <;>
  · ext l
    simp only [sync_to_add, sync_to_remove, Finset.mem_filter, Finset.mem_sdiff,
      Finset.mem_union, Finset.mem_inter, Finset.not_mem_empty, iff_false]
    tauto

/-- C2 witness: a concrete first run (add IMPEX, remove ITEMS) leaves nothing
for the second run. -/
theorem sync_idempotent_witness :
    sync_to_add {"IMPEX"}
        (({"ITEMS"} ∪ sync_to_add {"IMPEX"} {"ITEMS"} {"IMPEX"})
          \ sync_to_remove {"IMPEX"} {"ITEMS"}) {"IMPEX"} = ∅
    ∧ sync_to_remove {"IMPEX"}
        (({"ITEMS"} ∪ sync_to_add {"IMPEX"} {"ITEMS"} {"IMPEX"})
          \ sync_to_remove {"IMPEX"} {"ITEMS"}) = ∅ :=
  sync_idempotent {"IMPEX"} {"ITEMS"} {"IMPEX"}

/-- C9: the labels sync_labels attempts to add are exactly
(expected minus current) intersected with the refreshed repository catalog,
and every attempted addition is in the catalog. -/
theorem sync_add_catalog (expected current repoR : Finset String) :
    sync_to_add expected current repoR = (expected \ current) ∩ repoR
    ∧ ∀ l ∈ sync_to_add expected current repoR, l ∈ repoR := by
  constructor
  · rw [sync_to_add, Finset.filter_mem_eq_inter]
  · intro l hl
    rw [sync_to_add, Finset.mem_filter] at hl
    exact hl.2

/-- C9 witness: with catalog lacking CACHE, only the catalogued label IMPEX
is attempted. -/
theorem sync_add_catalog_witness :
    sync_to_add {"IMPEX", "CACHE"} ∅ {"IMPEX"}
      = (({"IMPEX", "CACHE"} : Finset String) \ ∅) ∩ {"IMPEX"}
    ∧ ∀ l ∈ sync_to_add {"IMPEX", "CACHE"} ∅ {"IMPEX"}, l ∈ ({"IMPEX"} : Finset String) :=
  sync_add_catalog {"IMPEX", "CACHE"} ∅ {"IMPEX"}

/-- A nonempty prefix fixes the first character of the string. -/
theorem startsWith_head_eq (s p : String) (hp : p.data ≠ [])
    (h : strStartsWith s p = true) : s.data.head? = p.data.head? := by
  rw [strStartsWith] at h
  cases hpd : p.data with
  | nil => exact absurd hpd hp
  | cons c cs =>
    rw [hpd] at h
    cases hsd : s.data with
    | nil => rw [hsd] at h; simp [listStarts] at h
    | cons a as =>
      rw [hsd] at h
      simp only [listStarts, Bool.and_eq_true, beq_iff_eq] at h
      simp [h.1]

/-- C4: the milestone choice is the first-match prefix policy on the base
branch: development maps to sprint-dev, feature/marketplace to marketplace,
release/upgrade to cloud, offline_kasa to offline-kasa, and a branch matching
no prefix yields no milestone action. -/
theorem set_milestone_policy (b : String) :
    (strStartsWith b "development" = true →
      set_milestone_choice b = some "sprint-dev")
    ∧ (strStartsWith b "feature/marketplace" = true →
      set_milestone_choice b = some "marketplace")
    ∧ (strStartsWith b "release/upgrade" = true →
      set_milestone_choice b = some "cloud")
    ∧ (strStartsWith b "offline_kasa" = true →
      set_milestone_choice b = some "offline-kasa")
    ∧ (strStartsWith b "development" = false →
      strStartsWith b "feature/marketplace" = false →
      strStartsWith b "release/upgrade" = false →
      strStartsWith b "offline_kasa" = false →
      set_milestone_choice b = none) := by
  have hne : ∀ p q : String, p.data ≠ [] → q.data ≠ [] →
      p.data.head? ≠ q.data.head? →
      strStartsWith b p = true → strStartsWith b q = false := by
    intro p q hp hq hpq h
    cases hbq : strStartsWith b q with
    | false => rfl
    | true =>
      have e1 := startsWith_head_eq b p hp h
      have e2 := startsWith_head_eq b q hq hbq
      rw [e1] at e2
      exact absurd e2 hpq
  refine ⟨?_, ?_, ?_, ?_, ?_⟩
  · intro h1
    simp [set_milestone_choice, h1]
  · intro h2
    have hd := hne "feature/marketplace" "development" (by decide) (by decide) (by decide) h2
    simp [set_milestone_choice, hd, h2]
  · intro h3
    have hd := hne "release/upgrade" "development" (by decide) (by decide) (by decide) h3
    have hf := hne "release/upgrade" "feature/marketplace" (by decide) (by decide) (by decide) h3
    simp [set_milestone_choice, hd, hf, h3]
  · intro h4
    have hd := hne "offline_kasa" "development" (by decide) (by decide) (by decide) h4
    have hf := hne "offline_kasa" "feature/marketplace" (by decide) (by decide) (by decide) h4
    have hr := hne "offline_kasa" "release/upgrade" (by decide) (by decide) (by decide) h4
    simp [set_milestone_choice, hd, hf, hr, h4]
  · intro h1 h2 h3 h4
    simp [set_milestone_choice, h1, h2, h3, h4]

/-- C4 witness: the five example branches of the policy table. -/
theorem set_milestone_policy_witness :
    set_milestone_choice "development-foo" = some "sprint-dev"
    ∧ set_milestone_choice "feature/marketplace-x" = some "marketplace"
    ∧ set_milestone_choice "release/upgrade-2" = some "cloud"
    ∧ set_milestone_choice "offline_kasa_v2" = some "offline-kasa"
    ∧ set_milestone_choice "hotfix/123" = none :=
  ⟨(set_milestone_policy "development-foo").1 (by decide),
   (set_milestone_policy "feature/marketplace-x").2.1 (by decide),
   (set_milestone_policy "release/upgrade-2").2.2.1 (by decide),
   (set_milestone_policy "offline_kasa_v2").2.2.2.1 (by decide),
   (set_milestone_policy "hotfix/123").2.2.2.2 (by decide) (by decide) (by decide) (by decide)⟩

/-- C10: the milestone decision of a run reads only the PR's base branch;
two runs that agree on everything except the BRANCH_NAME environment value
choose the same milestone (or the same absence of action). -/
theorem milestone_ignores_branch_name (i j : RunInputs)
    (_ht : i.pr_title = j.pr_title) (hb : i.base_ref = j.base_ref)
    (_hd : i.diffOutcome = j.diffOutcome) (_hc : i.commitSubjects = j.commitSubjects)
    (_hf : i.readFile = j.readFile) (_hcur : i.current_labels = j.current_labels)
    (_hrepo : i.repo_labels = j.repo_labels) :
    run_milestone_choice i = run_milestone_choice j := by
  rw [run_milestone_choice, run_milestone_choice, hb]

/-- C10 witness: two runs whose BRANCH_NAME inputs differ but whose base
branch is development agree on the milestone. -/
theorem milestone_ignores_branch_name_witness :
    run_milestone_choice
        ⟨"feature/marketplace-x", "t", "development", RunOutcome.completed "", [],
          fun _ => none, ∅, ∅⟩
      = run_milestone_choice
        ⟨"conflict-y", "t", "development", RunOutcome.completed "", [],
          fun _ => none, ∅, ∅⟩ :=
  milestone_ignores_branch_name _ _ rfl rfl rfl rfl rfl rfl rfl

/-- C3 counterexample: when the diff executable is unavailable the
subprocess spawn raises, the uncaught exception propagates out of
get_changed_files, and the result is not the empty list. -/
theorem get_changed_files_raise_cex :
    get_changed_files (RunOutcome.raised "FileNotFoundError: git")
      = Except.error "FileNotFoundError: git"
    ∧ get_changed_files (RunOutcome.raised "FileNotFoundError: git")
      ≠ Except.ok ([] : List (String × String)) := by
  constructor
  · rfl
  · intro h
    rw [get_changed_files] at h
    exact Except.noConfusion h

/-- C3 amended: when the diff command runs but retrieval fails, leaving
empty stdout, get_changed_files returns the empty list and the run
continues; but when the diff executable itself is unavailable the spawn
exception propagates and the run aborts. -/
theorem get_changed_files_soft_fail (msg out : String)
    (hfail : stripChars out.data = []) :
    get_changed_files (RunOutcome.raised msg) = Except.error msg
    ∧ get_changed_files (RunOutcome.completed out)
      = Except.ok ([] : List (String × String)) := by
  constructor
  · rfl
  · rw [get_changed_files]
    simp [parseNameStatus, hfail, splitlines]

/-- C3 amended witness: a failed diff with empty stdout yields the empty
list; a missing executable yields the propagated error. -/
theorem get_changed_files_soft_fail_witness :
    get_changed_files (RunOutcome.raised "FileNotFoundError") = Except.error "FileNotFoundError"
    ∧ get_changed_files (RunOutcome.completed "")
      = Except.ok ([] : List (String × String)) :=
  get_changed_files_soft_fail "FileNotFoundError" "" (by decide)
